import Mathlib

/-!
Shallow embedding of the hierarchical requirement resolution engine of
`rcm_schema` (file `rcm_schema/requirement_resolver.py`), together with the
write-time constraints on `org_requirement_policy`
(`models_backup.py` / migration `003_add_hierarchical_requirements_system.py`).

Python `dict`s are modelled as association lists with first-match lookup,
in-place value replacement on key collision and append for fresh keys
(Python insertion-order semantics).  JSON values submitted for validation are
modelled by the inductive type `Rcm.Value`.  Python's `re.match` (anchored at
the start only) is modelled for the regex fragment actually exercised by the
code and its tests: literal characters, `\d`, fixed repetition and an optional
trailing `$` anchor; a leading `^` is a no-op under `re.match` and is kept only
in the pattern's source text.
-/

namespace Rcm

/-- A JSON-ish runtime value as seen by `validate_fields` (`Any` in Python).
`nullV` is Python's `None`. -/
inductive Value where
  | nullV
  | strV (s : String)
  | intV (n : Int)
  | boolV (b : Bool)
deriving DecidableEq, Repr

/-- Python `repr` of a single value, used when an `enum` rule is formatted
into an error message by an f-string. -/
def value_repr : Value → String
  | Value.nullV => "None"
  | Value.strV s => "'" ++ s ++ "'"
  | Value.intV n => toString n
  | Value.boolV true => "True"
  | Value.boolV false => "False"

/-- Python `repr` of a list of values (`f"{rules['enum']}"`). -/
def list_repr (l : List Value) : String :=
  "[" ++ String.intercalate ", " (l.map value_repr) ++ "]"

/-- Regular-expression fragment used by the repository's field rules:
literal characters, the `\d` class, and concatenation (fixed repetition
`\d{9}` is expanded into a concatenation). -/
inductive Regex where
  | eps
  | chr (c : Char)
  | digit
  | seq (r1 r2 : Regex)
deriving DecidableEq, Repr

/-- Acceptance: `accept r cs` holds when the whole character list `cs` is matched by `r`. -/
def Regex.accept : Regex → List Char → Bool
  | Regex.eps, cs => cs.isEmpty
  | Regex.chr c, cs => cs == [c]
  | Regex.digit, cs =>
      match cs with
      | [d] => d.isDigit
      | _ => false
  | Regex.seq r1 r2, cs =>
      (List.range (cs.length + 1)).any fun k =>
        r1.accept (cs.take k) && r2.accept (cs.drop k)

/-- Repetition: `r` repeated `n` times, e.g. `\d{9}`. -/
def Regex.rep (r : Regex) : Nat → Regex
  | 0 => Regex.eps
  | n + 1 => Regex.seq r (Regex.rep r n)

/-- A compiled Python pattern: the source text (used verbatim in error
messages), the body regex, and whether the pattern ends in a `$` anchor.
Under `re.match` a leading `^` is redundant, so it is not modelled
structurally. -/
structure PyPattern where
  src : String
  re : Regex
  anchoredEnd : Bool
deriving DecidableEq, Repr

/-- Python `re.match(pattern, s)`: the match is anchored at the start of `s`
but may end anywhere, unless the pattern carries a `$` anchor, in which case it
must reach the end of `s`. -/
def py_re_match (p : PyPattern) (s : String) : Bool :=
  if p.anchoredEnd then p.re.accept s.data
  else (List.range (s.data.length + 1)).any fun k => p.re.accept (s.data.take k)

/-- Modelled from the spec: full-match semantics, "value must fully match the
regex" (spec §4.5).  Not present in the source, which uses `re.match`; kept
for comparison with the code's behaviour. -/
def re_fullmatch (p : PyPattern) (s : String) : Bool :=
  p.re.accept s.data

/-- A per-field rule dict: any subset of
`pattern` / `min_length` / `max_length` / `enum`
(`RequirementSet._validate_field_rules`). -/
structure RuleSpec where
  pattern : Option PyPattern := none
  min_length : Option Nat := none
  max_length : Option Nat := none
  enumv : Option (List Value) := none
deriving DecidableEq, Repr

/-- The pattern-rule error message, exactly as built by the f-string at
`requirement_resolver.py:82`. -/
def pattern_error (field : String) (p : PyPattern) : String :=
  field ++ ": Does not match required pattern " ++ p.src

/-- The min-length error message (`requirement_resolver.py:86`). -/
def min_length_error (field : String) (n : Nat) : String :=
  field ++ ": Must be at least " ++ toString n ++ " characters"

/-- The max-length error message (`requirement_resolver.py:90`). -/
def max_length_error (field : String) (n : Nat) : String :=
  field ++ ": Must be at most " ++ toString n ++ " characters"

/-- The enum-rule error message (`requirement_resolver.py:94`). -/
def enum_error (field : String) (l : List Value) : String :=
  field ++ ": Must be one of " ++ list_repr l

/-- Embedding of `RequirementSet._validate_field_rules`: apply the rules of one field to a
submitted value, in source order (pattern, min_length, max_length, enum).
The three string rules are skipped for non-string values
(`isinstance(value, str)`); the enum rule applies to every value. -/
def validate_field_rules (field : String) (value : Value) (rules : RuleSpec) :
    List String :=
  (match rules.pattern, value with
    | some p, Value.strV s =>
        if py_re_match p s then [] else [pattern_error field p]
    | _, _ => []) ++
  (match rules.min_length, value with
    | some n, Value.strV s =>
        if s.length < n then [min_length_error field n] else []
    | _, _ => []) ++
  (match rules.max_length, value with
    | some n, Value.strV s =>
        if n < s.length then [max_length_error field n] else []
    | _, _ => []) ++
  (match rules.enumv with
    | some l => if value ∈ l then [] else [enum_error field l]
    | none => [])

/-- First-match lookup in an association list: Python `d[k]` / `k in d`
(`some` ↔ membership). -/
def dictGet {α : Type} (d : List (String × α)) (k : String) : Option α :=
  (d.find? fun p => p.1 == k).map Prod.snd

/-- Result of `RequirementSet.validate_fields`. -/
structure ValidationResult where
  is_valid : Bool
  missing_required : List String
  extra_fields : List String
  validation_errors : List String
deriving DecidableEq, Repr

/-- Resolved requirements (`RequirementSet` dataclass).  Identifier columns
are kept so that the cached and computed paths can be compared whole;
`source` is the code's literal tag: `"effective_requirements"` for the
materialized-view (cache) path, `"computed"` for the merge path. -/
structure RequirementSet where
  portal_id : Int
  task_type_id : String
  org_id : String
  portal_type_id : Int
  required_fields : List String
  optional_fields : List String
  field_rules : List (String × RuleSpec)
  compliance_ref : Option String := none
  source : String := "effective_requirements"
deriving DecidableEq, Repr

/-- The code's `source` tag for a materialized-view (fast-path cache) hit,
from the dataclass default at `requirement_resolver.py:42`; it is the code's
rendering of the spec's `cached` variant. -/
def SOURCE_CACHED : String := "effective_requirements"

/-- Embedding of `RequirementSet.validate_fields`: missing required fields (absent or
`None`), extra submitted keys, and the accumulated per-field rule errors;
`is_valid = not (missing_required or validation_errors)`. -/
def RequirementSet.validate_fields (rs : RequirementSet)
    (submitted : List (String × Value)) : ValidationResult :=
  let missing_required := rs.required_fields.filter fun f =>
    match dictGet submitted f with
    | none => true
    | some Value.nullV => true
    | some _ => false
  let extra_fields := (submitted.map Prod.fst).filter fun f =>
    decide ¬(f ∈ rs.required_fields ∨ f ∈ rs.optional_fields)
  let validation_errors := rs.field_rules.flatMap fun fr =>
    match dictGet submitted fr.1 with
    | some v => validate_field_rules fr.1 v fr.2
    | none => []
  { is_valid := missing_required.isEmpty && validation_errors.isEmpty
    missing_required := missing_required
    extra_fields := extra_fields
    validation_errors := validation_errors }

/-- The `field_changes` JSONB payload of a policy.  Each of the three keys may
be absent.  The repository stores `field_rules` as a JSON object whose keys
are field names; a `remove` policy only ever reads those keys (design wart
noted in the migration's jsonb merge and in `_apply_policy`): a "set of names
to strip" is the key set of this association list. -/
structure FieldChanges where
  required_fields : Option (List String) := none
  optional_fields : Option (List String) := none
  field_rules : Option (List (String × RuleSpec)) := none
deriving DecidableEq, Repr

/-- A row of `org_requirement_policy` as consumed by the merge fold: only
`policy_type` (a free-form text column constrained by `chk_policy_type`) and
`field_changes` are read by `_apply_policy`; identifier, version and audit
columns select and order the policy list at the store boundary and are
omitted here. -/
structure OrgRequirementPolicy where
  policy_type : String
  field_changes : FieldChanges
deriving DecidableEq, Repr

/-- The only write-time database constraint on the policy columns consumed by
the merge fold: `CheckConstraint "policy_type IN ('add', 'remove', 'override')"`
(`chk_policy_type` in `models_backup.py:456` and migration 003).
`field_changes` itself is merely `NOT NULL`. -/
def chk_policy_type (t : String) : Bool :=
  t == "add" || t == "remove" || t == "override"

/-- Whether a policy row is accepted by the database at write time: the check
constraints on the columns the fold reads (there is no constraint on the
shape of `field_changes` beyond non-nullness, which the type already
guarantees). -/
def write_accepts (p : OrgRequirementPolicy) : Bool :=
  chk_policy_type p.policy_type

/-- The mutable triple `(required_fields, optional_fields, field_rules)`
threaded through `_apply_policy`. -/
structure WorkingSet where
  required_fields : List String
  optional_fields : List String
  field_rules : List (String × RuleSpec)
deriving DecidableEq, Repr

/-- Loop body of the `add` branch for `required_fields`
(`requirement_resolver.py:267`): append if not already present. -/
def addField (acc : List String) (f : String) : List String :=
  if f ∈ acc then acc else acc ++ [f]

/-- Loop body of the `add` branch for `optional_fields`
(`requirement_resolver.py:272`): append if in neither the optional accumulator
nor the (already updated) required list. -/
def addOptField (required : List String) (acc : List String) (f : String) :
    List String :=
  if f ∈ acc ∨ f ∈ required then acc else acc ++ [f]

/-- Python `dict.__setitem__` on an association list: replace the value in
place when the key exists, append otherwise. -/
def dictInsert {α : Type} (d : List (String × α)) (k : String) (v : α) :
    List (String × α) :=
  if d.any (fun p => p.1 == k) then
    d.map fun p => if p.1 == k then (k, v) else p
  else d ++ [(k, v)]

/-- Python `dict.update`: fold the new bindings over the old dict. -/
def dictUpdate {α : Type} (d upd : List (String × α)) : List (String × α) :=
  upd.foldl (fun acc p => dictInsert acc p.1 p.2) d

/-- Python `dict.pop(k, None)`: drop the binding for `k` if present. -/
def dictPop {α : Type} (d : List (String × α)) (k : String) :
    List (String × α) :=
  d.filter fun p => ¬(p.1 == k)

/-- Embedding of `RequirementResolver._apply_policy`: fold one policy onto the working
set.  `add` unions (skipping duplicates and, for optionals, fields already
required), `remove` filters, `override` wholesale-replaces exactly the keys
present in `field_changes`; an unrecognized `policy_type` falls through every
branch and leaves the working set unchanged. -/
def apply_policy (ws : WorkingSet) (policy : OrgRequirementPolicy) :
    WorkingSet :=
  let changes := policy.field_changes
  if policy.policy_type = "add" then
    let required := match changes.required_fields with
      | some fs => fs.foldl addField ws.required_fields
      | none => ws.required_fields
    let optional := match changes.optional_fields with
      | some fs => fs.foldl (addOptField required) ws.optional_fields
      | none => ws.optional_fields
    let rules := match changes.field_rules with
      | some fr => dictUpdate ws.field_rules fr
      | none => ws.field_rules
    ⟨required, optional, rules⟩
  else if policy.policy_type = "remove" then
    let required := match changes.required_fields with
      | some fs => ws.required_fields.filter fun f => decide ¬(f ∈ fs)
      | none => ws.required_fields
    let optional := match changes.optional_fields with
      | some fs => ws.optional_fields.filter fun f => decide ¬(f ∈ fs)
      | none => ws.optional_fields
    let rules := match changes.field_rules with
      | some fr => fr.foldl (fun acc kv => dictPop acc kv.1) ws.field_rules
      | none => ws.field_rules
    ⟨required, optional, rules⟩
  else if policy.policy_type = "override" then
    let required := match changes.required_fields with
      | some fs => fs
      | none => ws.required_fields
    let optional := match changes.optional_fields with
      | some fs => fs
      | none => ws.optional_fields
    let rules := match changes.field_rules with
      | some fr => fr
      | none => ws.field_rules
    ⟨required, optional, rules⟩
  else ws

/-- A versioned base rule set (`payer_requirement` row) as consumed by
`_compute_requirements` once the store has selected the highest version with
`effective_date <= as_of_date`; the selection keys themselves live at the
store boundary. -/
structure PayerRequirement where
  required_fields : List String
  optional_fields : List String
  field_rules : List (String × RuleSpec)
  compliance_ref : Option String := none
deriving DecidableEq, Repr

/-- The identifier context of a resolution call (portal row joined with its
portal type), copied verbatim into the resulting `RequirementSet`. -/
structure ResolutionContext where
  portal_id : Int
  task_type_id : String
  org_id : String
  portal_type_id : Int
deriving DecidableEq, Repr

/-- Embedding of `RequirementResolver._compute_requirements` after the store
queries: start the working set from the base payer requirement (empty lists and
dict when none matched), fold the active org policies in version order, and
tag the result `source = "computed"`. -/
def compute_requirements (ctx : ResolutionContext)
    (payer_req : Option PayerRequirement)
    (policies : List OrgRequirementPolicy) : RequirementSet :=
  let init : WorkingSet := match payer_req with
    | some pr => ⟨pr.required_fields, pr.optional_fields, pr.field_rules⟩
    | none => ⟨[], [], []⟩
  let compliance_ref : Option String := match payer_req with
    | some pr => pr.compliance_ref
    | none => none
  let ws := policies.foldl apply_policy init
  { portal_id := ctx.portal_id
    task_type_id := ctx.task_type_id
    org_id := ctx.org_id
    portal_type_id := ctx.portal_type_id
    required_fields := ws.required_fields
    optional_fields := ws.optional_fields
    field_rules := ws.field_rules
    compliance_ref := compliance_ref
    source := "computed" }

/-- A row of the `effective_requirements` materialized view as read by
`_get_from_materialized_view`; the three collection columns may be SQL NULL
(`row.required_fields or []`). -/
structure EffectiveRequirementsRow where
  portal_id : Int
  org_id : String
  portal_type_id : Int
  task_type_id : String
  required_fields : Option (List String)
  optional_fields : Option (List String)
  field_rules : Option (List (String × RuleSpec))
  compliance_ref : Option String
deriving DecidableEq, Repr

/-- The `RequirementSet` built from a materialized-view row
(`requirement_resolver.py:162`), tagged `source = "effective_requirements"`. -/
def row_to_requirement_set (row : EffectiveRequirementsRow) : RequirementSet :=
  { portal_id := row.portal_id
    task_type_id := row.task_type_id
    org_id := row.org_id
    portal_type_id := row.portal_type_id
    required_fields := row.required_fields.getD []
    optional_fields := row.optional_fields.getD []
    field_rules := row.field_rules.getD []
    compliance_ref := row.compliance_ref
    source := "effective_requirements" }

/-- Embedding of `RequirementResolver.get_requirements`: consult the materialized view
first; on a hit return the cached row, on a miss fall through to
`_compute_requirements`.  The store lookups are modelled at the call
boundary: `cached` is the view row (if any), `payer_req` and `policies` the
base-table query results. -/
def get_requirements (cached : Option EffectiveRequirementsRow)
    (ctx : ResolutionContext) (payer_req : Option PayerRequirement)
    (policies : List OrgRequirementPolicy) : RequirementSet :=
  match cached with
  | some row => row_to_requirement_set row
  | none => compute_requirements ctx payer_req policies

/-! ### Concrete fixtures used by the scenario witnesses and counterexamples -/

/-- Scenario 3's pattern `^W\d{9}$`: a `W` followed by nine digits, end-anchored. -/
def pattern_w9 : PyPattern :=
  { src := "^W\\d{9}$"
    re := Regex.seq (Regex.chr 'W') (Regex.rep Regex.digit 9)
    anchoredEnd := true }

/-- The un-anchored one-character pattern `a`, on which Python `re.match`
(prefix search) and full-match semantics disagree. -/
def pattern_lit_a : PyPattern :=
  { src := "a", re := Regex.chr 'a', anchoredEnd := false }

/-- A requirement set whose only rule is the un-anchored pattern `a` on the
optional field `memberId`. -/
def demo_rs_pattern : RequirementSet :=
  { portal_id := 1, task_type_id := "t", org_id := "o", portal_type_id := 1
    required_fields := [], optional_fields := ["memberId"]
    field_rules := [("memberId", { pattern := some pattern_lit_a })] }

/-- A requirement set used to exercise null-valued and extra submitted
fields: `a` is required with an enum rule, `b` has a min-length rule but is
neither required nor optional. -/
def demo_rs_rules : RequirementSet :=
  { portal_id := 1, task_type_id := "t", org_id := "o", portal_type_id := 1
    required_fields := ["a"], optional_fields := []
    field_rules := [("a", { enumv := some [Value.strV "x"] }),
                    ("b", { min_length := some 3 })] }

/-- A payer base matching Scenario 1 (`requiredFields = ["memberId","dob"]`). -/
def demo_base : PayerRequirement :=
  { required_fields := ["memberId", "dob"], optional_fields := []
    field_rules := [], compliance_ref := some "ref1" }

/-- Scenario 1's policy: `add {requiredFields:["authNumber"]}`. -/
def demo_add_policy : OrgRequirementPolicy :=
  ⟨"add", { required_fields := some ["authNumber"] }⟩

/-- Scenario 5's policy: `override {requiredFields:["x"]}`. -/
def demo_override_policy : OrgRequirementPolicy :=
  ⟨"override", { required_fields := some ["x"] }⟩

/-- A `remove` policy stripping the optional field `notes` and the rule for
`memberId` (Scenario 2 flavour). -/
def demo_remove_policy : OrgRequirementPolicy :=
  ⟨"remove", { optional_fields := some ["notes"]
               field_rules := some [("memberId", {})] }⟩

/-- A policy whose `field_changes` has none of its three optional keys: the
spec calls this malformed, yet no write-time constraint rejects it. -/
def demo_empty_policy : OrgRequirementPolicy :=
  ⟨"add", ⟨none, none, none⟩⟩

/-- The single-rule dict `{"pattern": "^W\d{9}$"}` of Scenario 3. -/
def demo_rule_w9 : RuleSpec := { pattern := some pattern_w9 }

/-- Submission exercising `demo_rs_rules`: required `a` is submitted as
`None`, `b` is an extra field with a string value. -/
def demo_sub_rules : List (String × Value) :=
  [("a", Value.nullV), ("b", Value.strV "zz")]

/-- A fixed resolution context for the scenario witnesses. -/
def demo_ctx : ResolutionContext :=
  { portal_id := 7, task_type_id := "task", org_id := "org", portal_type_id := 3 }

/-! ### Helper lemmas about the list and dict primitives -/

theorem mem_foldl_addField (fs : List String) (acc : List String) (f : String) :
    f ∈ fs.foldl addField acc ↔ f ∈ acc ∨ f ∈ fs := by
  induction fs generalizing acc with
  | nil => simp
  | cons g rest ih =>
    rw [List.foldl_cons, ih]
    unfold addField
    by_cases hg : g ∈ acc
    · rw [if_pos hg]
      constructor
      · rintro (h | h)
        · exact Or.inl h
        · exact Or.inr (List.mem_cons_of_mem g h)
      · rintro (h | h)
        · exact Or.inl h
        · rcases List.mem_cons.mp h with rfl | h
          · exact Or.inl hg
          · exact Or.inr h
    · rw [if_neg hg]
      simp only [List.mem_append, List.mem_singleton, List.mem_cons]
      tauto

theorem foldl_addField_append (fs acc : List String) :
    ∃ t, fs.foldl addField acc = acc ++ t := by
  induction fs generalizing acc with
  | nil => exact ⟨[], (List.append_nil acc).symm⟩
  | cons g rest ih =>
    rcases ih (addField acc g) with ⟨t, ht⟩
    rw [List.foldl_cons, ht]
    unfold addField
    by_cases hg : g ∈ acc
    · exact ⟨t, by rw [if_pos hg]⟩
    · exact ⟨[g] ++ t, by rw [if_neg hg, List.append_assoc]⟩

theorem nodup_foldl_addField (fs acc : List String) (h : acc.Nodup) :
    (fs.foldl addField acc).Nodup := by
  induction fs generalizing acc with
  | nil => exact h
  | cons g rest ih =>
    rw [List.foldl_cons]
    refine ih _ ?_
    unfold addField
    by_cases hg : g ∈ acc
    · rwa [if_pos hg]
    · rw [if_neg hg]
      simp [List.nodup_append, hg, h]

theorem mem_foldl_addOptField (req fs acc : List String) (f : String) :
    f ∈ fs.foldl (addOptField req) acc ↔ f ∈ acc ∨ (f ∈ fs ∧ f ∉ req) := by
  induction fs generalizing acc with
  | nil => simp
  | cons g rest ih =>
    rw [List.foldl_cons, ih]
    unfold addOptField
    by_cases hg : g ∈ acc ∨ g ∈ req
    · rw [if_pos hg]
      constructor
      · rintro (h | ⟨h1, h2⟩)
        · exact Or.inl h
        · exact Or.inr ⟨List.mem_cons_of_mem g h1, h2⟩
      · rintro (h | ⟨h1, h2⟩)
        · exact Or.inl h
        · rcases List.mem_cons.mp h1 with rfl | h1
          · rcases hg with hg | hg
            · exact Or.inl hg
            · exact absurd hg h2
          · exact Or.inr ⟨h1, h2⟩
    · rw [if_neg hg]
      push_neg at hg
      simp only [List.mem_append, List.mem_cons, List.not_mem_nil, or_false]
      constructor
      · rintro ((h | rfl) | ⟨h1, h2⟩)
        · exact Or.inl h
        · exact Or.inr ⟨Or.inl rfl, hg.2⟩
        · exact Or.inr ⟨Or.inr h1, h2⟩
      · rintro (h | ⟨rfl | h1, h2⟩)
        · exact Or.inl (Or.inl h)
        · exact Or.inl (Or.inr rfl)
        · exact Or.inr ⟨h1, h2⟩

theorem dictGet_nil {α : Type} (k : String) : dictGet ([] : List (String × α)) k = none := rfl

theorem dictGet_cons {α : Type} (p : String × α) (d : List (String × α)) (k : String) :
    dictGet (p :: d) k = if p.1 = k then some p.2 else dictGet d k := by
  by_cases h : p.1 = k <;> simp [dictGet, List.find?_cons, h]

theorem dictGet_eq_none_iff {α : Type} (d : List (String × α)) (k : String) :
    dictGet d k = none ↔ k ∉ d.map Prod.fst := by
  induction d with
  | nil => simp [dictGet_nil]
  | cons p rest ih =>
    rw [dictGet_cons]
    by_cases h : p.1 = k
    · simp [h]
    · simp only [if_neg h, ih, List.map_cons, List.mem_cons]
      constructor
      · rintro hn (h1 | h1)
        · exact h h1.symm
        · exact hn h1
      · intro hn h1
        exact hn (Or.inr h1)

theorem any_key_iff {α : Type} (d : List (String × α)) (k : String) :
    (d.any fun p => p.1 == k) = true ↔ k ∈ d.map Prod.fst := by
  simp only [List.any_eq_true, beq_iff_eq, List.mem_map]

theorem dictGet_map_replace {α : Type} (d : List (String × α)) (k k' : String) (v : α) :
    dictGet (d.map fun p => if p.1 == k then (k, v) else p) k' =
      if k' = k ∧ k ∈ d.map Prod.fst then some v else dictGet d k' := by
  induction d with
  | nil => simp [dictGet_nil]
  | cons p rest ih =>
    rw [List.map_cons]
    by_cases hp : p.1 = k
    · rw [if_pos (by simpa using hp), dictGet_cons]
      by_cases h : k' = k
      · have hm : k ∈ (p :: rest).map Prod.fst := by simp [hp]
        rw [if_pos h.symm, if_pos ⟨h, hm⟩]
      · rw [if_neg (fun hh => h hh.symm), ih,
          if_neg (fun hh : k' = k ∧ k ∈ rest.map Prod.fst => h hh.1),
          if_neg (fun hh : k' = k ∧ k ∈ (p :: rest).map Prod.fst => h hh.1),
          dictGet_cons, if_neg (fun hh => h (hp ▸ hh).symm)]
    · rw [if_neg (by simpa using hp), dictGet_cons]
      by_cases hpk : p.1 = k'
      · have hne : ¬(k' = k ∧ k ∈ (p :: rest).map Prod.fst) := by
          rintro ⟨rfl, -⟩
          exact hp hpk
        rw [if_pos hpk, if_neg hne, dictGet_cons, if_pos hpk]
      · rw [if_neg hpk, ih, dictGet_cons, if_neg hpk]
        by_cases h : k' = k ∧ k ∈ rest.map Prod.fst
        · have hc : k' = k ∧ k ∈ (p :: rest).map Prod.fst := ⟨h.1, by simp [h.2]⟩
          rw [if_pos h, if_pos hc]
        · have hne : ¬(k' = k ∧ k ∈ (p :: rest).map Prod.fst) := by
            rintro ⟨rfl, hm⟩
            rw [List.map_cons, List.mem_cons] at hm
            rcases hm with h1 | h1
            · exact hpk h1.symm
            · exact h ⟨rfl, h1⟩
          rw [if_neg h, if_neg hne]

theorem dictGet_append {α : Type} (d e : List (String × α)) (k : String) :
    dictGet (d ++ e) k = (dictGet d k).or (dictGet e k) := by
  unfold dictGet
  rw [List.find?_append]
  cases d.find? fun p => p.1 == k <;> simp

theorem dictGet_dictInsert {α : Type} (d : List (String × α)) (k k' : String) (v : α) :
    dictGet (dictInsert d k v) k' = if k' = k then some v else dictGet d k' := by
  unfold dictInsert
  by_cases hmem : k ∈ d.map Prod.fst
  · rw [if_pos ((any_key_iff d k).mpr hmem), dictGet_map_replace]
    by_cases h : k' = k
    · rw [if_pos ⟨h, hmem⟩, if_pos h]
    · rw [if_neg (fun hh : k' = k ∧ _ => h hh.1), if_neg h]
  · rw [if_neg (fun hc => hmem ((any_key_iff d k).mp hc)), dictGet_append]
    by_cases h : k' = k
    · subst h
      rw [(dictGet_eq_none_iff d k').mpr hmem, dictGet_cons, if_pos rfl, if_pos rfl]
      rfl
    · rw [dictGet_cons, if_neg (fun hh => h hh.symm), dictGet_nil, Option.or_none, if_neg h]

theorem dictGet_dictUpdate {α : Type} (d upd : List (String × α)) (k : String)
    (h : (upd.map Prod.fst).Nodup) :
    dictGet (dictUpdate d upd) k =
      if k ∈ upd.map Prod.fst then dictGet upd k else dictGet d k := by
  induction upd generalizing d with
  | nil => simp [dictUpdate]
  | cons p rest ih =>
    rw [List.map_cons, List.nodup_cons] at h
    show dictGet (dictUpdate (dictInsert d p.1 p.2) rest) k = _
    rw [ih _ h.2]
    by_cases hk : k ∈ rest.map Prod.fst
    · have hne : k ≠ p.1 := fun hh => h.1 (hh ▸ hk)
      rw [if_pos hk, if_pos (by simp [hk]), dictGet_cons, if_neg (fun hh => hne hh.symm)]
    · rw [if_neg hk, dictGet_dictInsert]
      by_cases he : k = p.1
      · rw [if_pos he, if_pos (by simp [he]), dictGet_cons, if_pos he.symm]
      · have hm : ¬ k ∈ (p :: rest).map Prod.fst := by
          rw [List.map_cons, List.mem_cons]
          rintro (h1 | h1)
          · exact he h1
          · exact hk h1
        rw [if_neg he, if_neg hm]

theorem dictGet_dictPop {α : Type} (d : List (String × α)) (k k' : String) :
    dictGet (dictPop d k) k' = if k' = k then none else dictGet d k' := by
  induction d with
  | nil => simp [dictPop, dictGet_nil]
  | cons p rest ih =>
    by_cases hp : p.1 = k
    · have hstep : dictPop (p :: rest) k = dictPop rest k := by
        simp [dictPop, List.filter_cons, hp]
      rw [hstep, ih]
      by_cases h : k' = k
      · rw [if_pos h, if_pos h]
      · rw [if_neg h, if_neg h, dictGet_cons, if_neg (fun hh => h (hp ▸ hh).symm)]
    · have hstep : dictPop (p :: rest) k = p :: dictPop rest k := by
        simp [dictPop, List.filter_cons, hp]
      rw [hstep, dictGet_cons, dictGet_cons]
      by_cases hpk : p.1 = k'
      · rw [if_pos hpk, if_neg (fun hh : k' = k => hp (hpk ▸ hh)), if_pos hpk]
      · rw [if_neg hpk, if_neg hpk, ih]

theorem dictGet_foldl_dictPop {α β : Type} (fr : List (String × β))
    (d : List (String × α)) (k : String) :
    dictGet (fr.foldl (fun acc kv => dictPop acc kv.1) d) k =
      if k ∈ fr.map Prod.fst then none else dictGet d k := by
  induction fr generalizing d with
  | nil => simp
  | cons p rest ih =>
    rw [List.foldl_cons, ih]
    by_cases hk : k ∈ rest.map Prod.fst
    · rw [if_pos hk, if_pos (by simp [hk])]
    · rw [if_neg hk, dictGet_dictPop]
      by_cases he : k = p.1
      · rw [if_pos he, if_pos (by simp [he])]
      · have hm : ¬ k ∈ (p :: rest).map Prod.fst := by
          rw [List.map_cons, List.mem_cons]
          rintro (h1 | h1)
          · exact he h1
          · exact hk h1
        rw [if_neg he, if_neg hm]

theorem filter_not_mem_nil (l : List String) :
    l.filter (fun f => decide ¬(f ∈ ([] : List String))) = l :=
  List.filter_eq_self.mpr (by simp)

theorem apply_policy_add (ws : WorkingSet) (changes : FieldChanges) :
    apply_policy ws ⟨"add", changes⟩ =
      ⟨(changes.required_fields.getD []).foldl addField ws.required_fields,
       (changes.optional_fields.getD []).foldl
         (addOptField ((changes.required_fields.getD []).foldl addField
            ws.required_fields))
         ws.optional_fields,
       dictUpdate ws.field_rules (changes.field_rules.getD [])⟩ := by
  obtain ⟨rf, opf, frr⟩ := changes
  cases rf <;> cases opf <;> cases frr <;> rfl

theorem apply_policy_remove (ws : WorkingSet) (changes : FieldChanges) :
    apply_policy ws ⟨"remove", changes⟩ =
      ⟨ws.required_fields.filter
         (fun f => decide ¬(f ∈ changes.required_fields.getD [])),
       ws.optional_fields.filter
         (fun f => decide ¬(f ∈ changes.optional_fields.getD [])),
       (changes.field_rules.getD []).foldl (fun acc kv => dictPop acc kv.1)
         ws.field_rules⟩ := by
  obtain ⟨rf, opf, frr⟩ := changes
  cases rf <;> cases opf <;> cases frr <;>
    simp [apply_policy, filter_not_mem_nil]

theorem apply_policy_override (ws : WorkingSet) (changes : FieldChanges) :
    apply_policy ws ⟨"override", changes⟩ =
      ⟨changes.required_fields.getD ws.required_fields,
       changes.optional_fields.getD ws.optional_fields,
       changes.field_rules.getD ws.field_rules⟩ := by
  obtain ⟨rf, opf, frr⟩ := changes
  cases rf <;> cases opf <;> cases frr <;> rfl

theorem validate_fields_missing (rs : RequirementSet)
    (sub : List (String × Value)) :
    (rs.validate_fields sub).missing_required = rs.required_fields.filter fun f =>
      match dictGet sub f with
      | none => true
      | some Value.nullV => true
      | some _ => false := rfl

theorem validate_fields_extra (rs : RequirementSet)
    (sub : List (String × Value)) :
    (rs.validate_fields sub).extra_fields = (sub.map Prod.fst).filter fun f =>
      decide ¬(f ∈ rs.required_fields ∨ f ∈ rs.optional_fields) := rfl

theorem validate_fields_errors (rs : RequirementSet)
    (sub : List (String × Value)) :
    (rs.validate_fields sub).validation_errors = rs.field_rules.flatMap fun fr =>
      match dictGet sub fr.1 with
      | some v => validate_field_rules fr.1 v fr.2
      | none => [] := rfl

theorem validate_fields_is_valid (rs : RequirementSet)
    (sub : List (String × Value)) :
    (rs.validate_fields sub).is_valid =
      ((rs.validate_fields sub).missing_required.isEmpty &&
        (rs.validate_fields sub).validation_errors.isEmpty) := rfl

theorem validate_field_rules_nullV (f : String) (r : RuleSpec) :
    validate_field_rules f Value.nullV r =
      match r.enumv with
      | some l => if Value.nullV ∈ l then [] else [enum_error f l]
      | none => [] := by
  obtain ⟨rp, rmin, rmax, renum⟩ := r
  cases rp <;> cases rmin <;> cases rmax <;> rfl

/-! ### Claim theorems -/

/-- Claim C1: an `add` policy makes `required_fields` the order-preserving,
duplicate-free union of the old required fields with
`changes.required_fields`; `optional_fields` gains the fields of
`changes.optional_fields` not already optional and not (now) required; and
`field_rules` is merged key-by-key with the policy's value winning on key
collision. -/
theorem C1_add_policy_union (ws : WorkingSet) (p : OrgRequirementPolicy)
    (hp : p.policy_type = "add")
    (hnd : ((p.field_changes.field_rules.getD []).map Prod.fst).Nodup) :
    (∀ f, f ∈ (apply_policy ws p).required_fields ↔
        f ∈ ws.required_fields ∨ f ∈ p.field_changes.required_fields.getD [])
    ∧ (∃ t, (apply_policy ws p).required_fields = ws.required_fields ++ t)
    ∧ (ws.required_fields.Nodup → (apply_policy ws p).required_fields.Nodup)
    ∧ (∀ f, f ∈ (apply_policy ws p).optional_fields ↔
        f ∈ ws.optional_fields ∨
          (f ∈ p.field_changes.optional_fields.getD [] ∧
            f ∉ (apply_policy ws p).required_fields))
    ∧ (∀ k, dictGet (apply_policy ws p).field_rules k =
        if k ∈ (p.field_changes.field_rules.getD []).map Prod.fst
        then dictGet (p.field_changes.field_rules.getD []) k
        else dictGet ws.field_rules k) := by
  obtain ⟨pt, changes⟩ := p
  have hp' : pt = "add" := hp
  subst hp'
  rw [apply_policy_add]
  refine ⟨?_, ?_, ?_, ?_, ?_⟩
  · intro f
    exact mem_foldl_addField _ _ f
  · exact foldl_addField_append _ _
  · intro h
    exact nodup_foldl_addField _ _ h
  · intro f
    exact mem_foldl_addOptField _ _ _ f
  · intro k
    exact dictGet_dictUpdate _ _ k hnd

/-- Witness for C1 at Scenario 1: adding `authNumber` to
`["memberId","dob"]` makes it a member of the resulting required list. -/
theorem C1_add_policy_union_witness :
    "authNumber" ∈
      (apply_policy ⟨["memberId", "dob"], [], []⟩ demo_add_policy).required_fields :=
  ((C1_add_policy_union ⟨["memberId", "dob"], [], []⟩ demo_add_policy rfl
      (by decide)).1 "authNumber").mpr (Or.inr (by decide))

/-- Claim C2: an `override` policy fully replaces exactly the working-set
components whose key is present in `field_changes`; components whose key is
absent are left exactly as they were before the policy was folded. -/
theorem C2_override_only_touched (ws : WorkingSet) (p : OrgRequirementPolicy)
    (hp : p.policy_type = "override") :
    ((p.field_changes.required_fields = none →
        (apply_policy ws p).required_fields = ws.required_fields)
      ∧ ∀ l, p.field_changes.required_fields = some l →
        (apply_policy ws p).required_fields = l)
    ∧ ((p.field_changes.optional_fields = none →
        (apply_policy ws p).optional_fields = ws.optional_fields)
      ∧ ∀ l, p.field_changes.optional_fields = some l →
        (apply_policy ws p).optional_fields = l)
    ∧ ((p.field_changes.field_rules = none →
        (apply_policy ws p).field_rules = ws.field_rules)
      ∧ ∀ m, p.field_changes.field_rules = some m →
        (apply_policy ws p).field_rules = m) := by
  obtain ⟨pt, changes⟩ := p
  have hp' : pt = "override" := hp
  subst hp'
  rw [apply_policy_override]
  refine ⟨⟨?_, ?_⟩, ⟨?_, ?_⟩, ⟨?_, ?_⟩⟩
  · intro h
    show changes.required_fields.getD _ = _
    rw [h]
    rfl
  · intro l h
    show changes.required_fields.getD _ = _
    rw [h]
    rfl
  · intro h
    show changes.optional_fields.getD _ = _
    rw [h]
    rfl
  · intro l h
    show changes.optional_fields.getD _ = _
    rw [h]
    rfl
  · intro h
    show changes.field_rules.getD _ = _
    rw [h]
    rfl
  · intro m h
    show changes.field_rules.getD _ = _
    rw [h]
    rfl

/-- Witness for C2: an override that only sets `required_fields` leaves a
concrete optional list and rule dict untouched. -/
theorem C2_override_only_touched_witness :
    (apply_policy ⟨["a"], ["notes"], [("a", {})]⟩
        demo_override_policy).optional_fields = ["notes"]
    ∧ (apply_policy ⟨["a"], ["notes"], [("a", {})]⟩
        demo_override_policy).field_rules = [("a", {})] :=
  ⟨(C2_override_only_touched ⟨["a"], ["notes"], [("a", {})]⟩
      demo_override_policy rfl).2.1.1 rfl,
   (C2_override_only_touched ⟨["a"], ["notes"], [("a", {})]⟩
      demo_override_policy rfl).2.2.1 rfl⟩

/-- Claim C5: resolution is deterministic — the fold is a pure left-to-right
reduction, so identical base and identical ordered policy lists yield
identical `RequirementSet` contents. -/
theorem C5_resolve_deterministic (ctx1 ctx2 : ResolutionContext)
    (b1 b2 : Option PayerRequirement)
    (ps1 ps2 : List OrgRequirementPolicy)
    (hctx : ctx1 = ctx2) (hb : b1 = b2) (hp : ps1 = ps2) :
    compute_requirements ctx1 b1 ps1 = compute_requirements ctx2 b2 ps2 := by
  rw [hctx, hb, hp]

/-- Witness for C5 at Scenario 1's inputs. -/
theorem C5_resolve_deterministic_witness :
    compute_requirements demo_ctx (some demo_base) [demo_add_policy]
      = compute_requirements demo_ctx (some demo_base) [demo_add_policy] :=
  C5_resolve_deterministic demo_ctx demo_ctx (some demo_base) (some demo_base)
    [demo_add_policy] [demo_add_policy] rfl rfl rfl

/-- Claim C6: a `remove` policy filters `changes.required_fields` out of the
required list and `changes.optional_fields` out of the optional list, deletes
every key of `changes.field_rules` (read as a set of field names) from the
rule dict, and never adds a field. -/
theorem C6_remove_policy (ws : WorkingSet) (p : OrgRequirementPolicy)
    (hp : p.policy_type = "remove") :
    (apply_policy ws p).required_fields
      = ws.required_fields.filter
          (fun f => decide ¬(f ∈ p.field_changes.required_fields.getD []))
    ∧ (apply_policy ws p).optional_fields
      = ws.optional_fields.filter
          (fun f => decide ¬(f ∈ p.field_changes.optional_fields.getD []))
    ∧ (∀ k, dictGet (apply_policy ws p).field_rules k
        = if k ∈ (p.field_changes.field_rules.getD []).map Prod.fst then none
          else dictGet ws.field_rules k)
    ∧ (∀ f, f ∈ (apply_policy ws p).required_fields → f ∈ ws.required_fields)
    ∧ (∀ f, f ∈ (apply_policy ws p).optional_fields → f ∈ ws.optional_fields) := by
  obtain ⟨pt, changes⟩ := p
  have hp' : pt = "remove" := hp
  subst hp'
  rw [apply_policy_remove]
  refine ⟨rfl, rfl, ?_, ?_, ?_⟩
  · intro k
    exact dictGet_foldl_dictPop _ _ k
  · intro f hf
    exact (List.mem_filter.mp hf).1
  · intro f hf
    exact (List.mem_filter.mp hf).1

/-- Witness for C6: removing the optional field `notes` and the rule for
`memberId` from a concrete working set. -/
theorem C6_remove_policy_witness :
    (apply_policy ⟨["memberId"], ["notes"], [("memberId", {})]⟩
        demo_remove_policy).optional_fields = []
    ∧ dictGet (apply_policy ⟨["memberId"], ["notes"], [("memberId", {})]⟩
        demo_remove_policy).field_rules "memberId" = none := by
  constructor
  · rw [(C6_remove_policy ⟨["memberId"], ["notes"], [("memberId", {})]⟩
      demo_remove_policy rfl).2.1]
    decide
  · rw [(C6_remove_policy ⟨["memberId"], ["notes"], [("memberId", {})]⟩
      demo_remove_policy rfl).2.2.1 "memberId"]
    decide

/-- Claim C7: `get_requirements` consults the materialized view (fast-path
cache) first: a hit returns the cached row verbatim — without depending on
the base-table inputs — tagged with the cached-path source tag, and a miss
falls through to `_compute_requirements`, whose result is tagged
`"computed"`. -/
theorem C7_cache_first (row : EffectiveRequirementsRow)
    (ctx1 ctx2 : ResolutionContext) (b1 b2 : Option PayerRequirement)
    (ps1 ps2 : List OrgRequirementPolicy) :
    get_requirements (some row) ctx1 b1 ps1 = row_to_requirement_set row
    ∧ get_requirements (some row) ctx1 b1 ps1
        = get_requirements (some row) ctx2 b2 ps2
    ∧ (get_requirements (some row) ctx1 b1 ps1).source = SOURCE_CACHED
    ∧ (∀ ctx b ps, get_requirements none ctx b ps = compute_requirements ctx b ps)
    ∧ (∀ ctx b ps, (get_requirements none ctx b ps).source = "computed") :=
  ⟨rfl, rfl, rfl, fun _ _ _ => rfl, fun _ _ _ => rfl⟩

/-- Claim C8: a missing base `PayerRequirement` is not an error — the working
set starts empty (no required, no optional, no rules, no compliance ref) and
resolution folds only the org policies; with no base and one `override`
policy setting `required_fields = ["x"]` the result has exactly `["x"]`
required and `source = "computed"`. -/
theorem C8_no_base_not_error (ctx : ResolutionContext)
    (policies : List OrgRequirementPolicy) :
    ((compute_requirements ctx none policies).required_fields
        = (policies.foldl apply_policy ⟨[], [], []⟩).required_fields
      ∧ (compute_requirements ctx none policies).optional_fields
        = (policies.foldl apply_policy ⟨[], [], []⟩).optional_fields
      ∧ (compute_requirements ctx none policies).field_rules
        = (policies.foldl apply_policy ⟨[], [], []⟩).field_rules)
    ∧ (compute_requirements ctx none policies).compliance_ref = none
    ∧ (compute_requirements ctx none policies).source = "computed"
    ∧ (compute_requirements ctx none [demo_override_policy]).required_fields
        = ["x"]
    ∧ (compute_requirements ctx none [demo_override_policy]).source
        = "computed" :=
  ⟨⟨rfl, rfl, rfl⟩, rfl, rfl, rfl, rfl⟩

/-- Claim C4: `is_valid` is true exactly when both `missing_required` and
`validation_errors` are empty; extra fields never invalidate the result. -/
theorem C4_is_valid_iff (rs : RequirementSet) (sub : List (String × Value)) :
    ((rs.validate_fields sub).is_valid = true ↔
      (rs.validate_fields sub).missing_required = []
        ∧ (rs.validate_fields sub).validation_errors = [])
    ∧ ((rs.validate_fields sub).extra_fields ≠ [] →
        (rs.validate_fields sub).missing_required = [] →
        (rs.validate_fields sub).validation_errors = [] →
        (rs.validate_fields sub).is_valid = true) := by
  constructor
  · rw [validate_fields_is_valid, Bool.and_eq_true, List.isEmpty_iff,
      List.isEmpty_iff]
  · intro _ h1 h2
    rw [validate_fields_is_valid, Bool.and_eq_true, List.isEmpty_iff,
      List.isEmpty_iff]
    exact ⟨h1, h2⟩

/-- Witness for C4: a submission consisting of one extra field only is
valid. -/
theorem C4_is_valid_iff_witness :
    (demo_rs_pattern.validate_fields [("z", Value.strV "1")]).is_valid = true :=
  (C4_is_valid_iff demo_rs_pattern [("z", Value.strV "1")]).2 (by decide) rfl rfl

/-- Claim C3 counterexample: for the un-anchored pattern `a` and the
submitted string value `ab`, the code reports no error (Python `re.match`
finds the prefix `a`) although `ab` does not fully match the regex — so
"error iff the value does not fully match" is false on the code. -/
theorem C3_counterexample :
    ¬(((demo_rs_pattern.validate_fields
          [("memberId", Value.strV "ab")]).validation_errors ≠ [])
        ↔ re_fullmatch pattern_lit_a "ab" = false) := by
  decide

/-- Claim C3 as amended: for a field with a `pattern` rule and a string
value, the code prepends the error
`"<field>: Does not match required pattern <pattern>"` (capital `D`) exactly
when Python `re.match` fails — a start-anchored, not full, match; for an
end-anchored pattern (such as Scenario 3's `^W\d{9}$`) `re.match` coincides
with full match. -/
theorem C3_pattern_uses_re_match (f s : String) (rules : RuleSpec)
    (pat : PyPattern) (hp : rules.pattern = some pat) :
    validate_field_rules f (Value.strV s) rules =
      (if py_re_match pat s then [] else [pattern_error f pat])
        ++ validate_field_rules f (Value.strV s) { rules with pattern := none }
    ∧ (pat.anchoredEnd = true → py_re_match pat s = re_fullmatch pat s) := by
  constructor
  · obtain ⟨rp, rmin, rmax, renum⟩ := rules
    have hp' : rp = some pat := hp
    subst hp'
    cases rmin <;> cases rmax <;> cases renum <;>
      simp [validate_field_rules, List.append_assoc]
  · intro h
    simp [py_re_match, re_fullmatch, h]

/-- Witness for the amended C3 at Scenario 3's failing input `123`. -/
theorem C3_pattern_uses_re_match_witness :
    (validate_field_rules "memberId" (Value.strV "123") demo_rule_w9 =
      (if py_re_match pattern_w9 "123" then []
       else [pattern_error "memberId" pattern_w9])
        ++ validate_field_rules "memberId" (Value.strV "123")
            { demo_rule_w9 with pattern := none })
    ∧ (pattern_w9.anchoredEnd = true →
        py_re_match pattern_w9 "123" = re_fullmatch pattern_w9 "123") :=
  C3_pattern_uses_re_match "memberId" "123" demo_rule_w9 pattern_w9 rfl

/-- Claim C9 counterexample: a policy whose `field_changes` has none of the
three optional keys passes every write-time constraint on the policy columns
(the only check is `chk_policy_type`), so it is not rejected when written. -/
theorem C9_counterexample :
    write_accepts demo_empty_policy = true
    ∧ demo_empty_policy.field_changes.required_fields = none
    ∧ demo_empty_policy.field_changes.optional_fields = none
    ∧ demo_empty_policy.field_changes.field_rules = none := by
  decide

/-- Claim C9 as amended: a policy with an unrecognized `policy_type` is
rejected at write time by the `chk_policy_type` check constraint, but a
policy whose `field_changes` has none of the three keys is accepted at write
time; it does reach the merge fold, where it leaves the working set
unchanged (a no-op). -/
theorem C9_write_time_checks (p : OrgRequirementPolicy) :
    (p.policy_type ≠ "add" → p.policy_type ≠ "remove" →
      p.policy_type ≠ "override" → write_accepts p = false)
    ∧ (p.field_changes = ⟨none, none, none⟩ → ∀ ws, apply_policy ws p = ws) := by
  constructor
  · intro h1 h2 h3
    unfold write_accepts chk_policy_type
    rw [beq_eq_false_iff_ne.mpr h1, beq_eq_false_iff_ne.mpr h2,
      beq_eq_false_iff_ne.mpr h3]
    rfl
  · intro h ws
    obtain ⟨pt, changes⟩ := p
    have h' : changes = ⟨none, none, none⟩ := h
    subst h'
    obtain ⟨a, b, c⟩ := ws
    simp only [apply_policy]
    split
    · rfl
    split
    · rfl
    split
    · rfl
    · rfl

/-- Witness for the amended C9: the unrecognized type `merge` is rejected,
and the key-less policy is a no-op on a concrete working set. -/
theorem C9_write_time_checks_witness :
    write_accepts ⟨"merge", ⟨none, none, none⟩⟩ = false
    ∧ apply_policy ⟨["a"], [], []⟩ demo_empty_policy = ⟨["a"], [], []⟩ :=
  ⟨(C9_write_time_checks ⟨"merge", ⟨none, none, none⟩⟩).1 (by decide) (by decide)
      (by decide),
   (C9_write_time_checks demo_empty_policy).2 rfl ⟨["a"], [], []⟩⟩

/-- Claim C10: the per-field rules run for every submitted field with an
entry in `field_rules`, including null values and fields outside
required ∪ optional: a required field submitted as `None` lands in
`missing_required` and, when it has an `enum` rule (whose set, per the data
model, does not contain null), also produces a validation error; an extra
field is listed in `extra_fields` and its rule errors still appear in
`validation_errors`. -/
theorem C10_rules_apply_to_all_submitted (rs : RequirementSet)
    (sub : List (String × Value)) (f : String) :
    (f ∈ rs.required_fields → dictGet sub f = some Value.nullV →
      f ∈ (rs.validate_fields sub).missing_required)
    ∧ (∀ r e, dictGet sub f = some Value.nullV →
        dictGet rs.field_rules f = some r → r.enumv = some e →
        Value.nullV ∉ e →
        enum_error f e ∈ (rs.validate_fields sub).validation_errors)
    ∧ (f ∈ sub.map Prod.fst → f ∉ rs.required_fields →
        f ∉ rs.optional_fields → f ∈ (rs.validate_fields sub).extra_fields)
    ∧ (∀ v r m, dictGet sub f = some v → dictGet rs.field_rules f = some r →
        m ∈ validate_field_rules f v r →
        m ∈ (rs.validate_fields sub).validation_errors) := by
  have hmem_err : ∀ v r m, dictGet sub f = some v →
      dictGet rs.field_rules f = some r → m ∈ validate_field_rules f v r →
      m ∈ (rs.validate_fields sub).validation_errors := by
    intro v r m hsub hrule hm
    rw [validate_fields_errors]
    unfold dictGet at hrule
    cases hfind : rs.field_rules.find? (fun q => q.1 == f) with
    | none =>
      rw [hfind] at hrule
      exact absurd hrule (by simp)
    | some q =>
      rw [hfind] at hrule
      have hq2 : q.2 = r := by simpa using hrule
      have hqf : q.1 = f := by simpa using List.find?_some hfind
      refine List.mem_flatMap.mpr ⟨q, List.mem_of_find?_eq_some hfind, ?_⟩
      rw [hqf, hsub]
      show m ∈ validate_field_rules f v q.2
      rw [hq2]
      exact hm
  refine ⟨?_, ?_, ?_, hmem_err⟩
  · intro hreq hnull
    rw [validate_fields_missing]
    exact List.mem_filter.mpr ⟨hreq, by rw [hnull]⟩
  · intro r e hnull hrule henum hne
    apply hmem_err Value.nullV r (enum_error f e) hnull hrule
    rw [validate_field_rules_nullV]
    simp [henum, hne]
  · intro hsubm hnr hno
    rw [validate_fields_extra]
    refine List.mem_filter.mpr ⟨hsubm, ?_⟩
    simp [hnr, hno]

/-- Witness for C10 on `demo_rs_rules` / `demo_sub_rules`: the null-valued
required field `a` is missing and enum-errored; the extra field `b` is
reported and its min-length error still appears. -/
theorem C10_rules_apply_to_all_submitted_witness :
    "a" ∈ (demo_rs_rules.validate_fields demo_sub_rules).missing_required
    ∧ enum_error "a" [Value.strV "x"]
        ∈ (demo_rs_rules.validate_fields demo_sub_rules).validation_errors
    ∧ "b" ∈ (demo_rs_rules.validate_fields demo_sub_rules).extra_fields
    ∧ min_length_error "b" 3
        ∈ (demo_rs_rules.validate_fields demo_sub_rules).validation_errors :=
  ⟨(C10_rules_apply_to_all_submitted demo_rs_rules demo_sub_rules "a").1
      (by decide) (by decide),
   (C10_rules_apply_to_all_submitted demo_rs_rules demo_sub_rules "a").2.1
      { enumv := some [Value.strV "x"] } [Value.strV "x"] (by decide) (by decide)
      rfl (by decide),
   (C10_rules_apply_to_all_submitted demo_rs_rules demo_sub_rules "b").2.2.1
      (by decide) (by decide) (by decide),
   (C10_rules_apply_to_all_submitted demo_rs_rules demo_sub_rules "b").2.2.2
      (Value.strV "zz") { min_length := some 3 } (min_length_error "b" 3)
      (by decide) (by decide) (by decide)⟩

end Rcm
